import Mathlib

/-!
Verification of the scene model, hit-testing, selection-transform and
history logic of the in-browser drawing application.

The definitions below are shallow embeddings of the TypeScript source:
coordinates, sizes and opacities (JS numbers) are modelled as rationals,
colors/fonts/text as strings, and the React state cells
(objects / history / redoStack / selected / dragStart) as one explicit
record that the event-handler functions transform.
-/

/-- A 2-D point, as in `type Point = { x, y }` (src/app/page.tsx line 12). -/
structure Pt where
  x : ℚ
  y : ℚ
deriving DecidableEq, Repr

/-- Shape kinds, from `"rectangle" | "circle" | "triangle"` (src/app/page.tsx line 30). -/
inductive ShapeKind
  | rectangle
  | circle
  | triangle
deriving DecidableEq, Repr

/-- The tagged union `DrawObj = PathObj | LineObj | ShapeObj | TextObj`
(src/app/page.tsx lines 12-49).  Field order follows the source records. -/
inductive DrawObj
  | path (points : List Pt) (size : ℚ) (color : String) (opacity : ℚ) (eraser : Bool)
  | line (p1 p2 : Pt) (size : ℚ) (color : String) (opacity : ℚ)
  | shape (kind : ShapeKind) (x y w h : ℚ) (size : ℚ) (color : String) (opacity : ℚ)
  | text (x y : ℚ) (content : String) (color : String) (size : ℚ) (font : String) (opacity : ℚ)
deriving DecidableEq, Repr

/-- The React state cells of the main variant (src/app/page.tsx lines 63-68):
`objects`, `history`, `redoStack`, `selected`, `dragStart`. -/
structure State where
  objects : List DrawObj
  history : List (List DrawObj)
  redoStack : List (List DrawObj)
  selected : Option Nat
  dragStart : Option Pt
deriving DecidableEq, Repr

/-- The initial state: empty store, empty stacks, no selection. -/
def initState : State := ⟨[], [], [], none, none⟩

/-- Function `moveObject(obj, dx, dy)` (src/app/page.tsx lines 307-321): shifts every
coordinate-bearing field, mapping over the points of paths and lines. -/
def moveObject (o : DrawObj) (dx dy : ℚ) : DrawObj :=
  match o with
  | .path pts sz c op e => .path (pts.map fun p => ⟨p.x + dx, p.y + dy⟩) sz c op e
  | .line p1 p2 sz c op => .line ⟨p1.x + dx, p1.y + dy⟩ ⟨p2.x + dx, p2.y + dy⟩ sz c op
  | .shape k x y w h sz c op => .shape k (x + dx) (y + dy) w h sz c op
  | .text x y t c sz f op => .text (x + dx) (y + dy) t c sz f op

/-- Minimum of a list of rationals, as `Math.min(...xs)` is used on the
(always nonempty) coordinate lists in `getBoundingBox`; the `[]` default is
never reached for stored objects. -/
def listMin : List ℚ → ℚ
  | [] => 0
  | q :: qs => qs.foldl min q

/-- Maximum of a list of rationals, as `Math.max(...xs)` in `getBoundingBox`. -/
def listMax : List ℚ → ℚ
  | [] => 0
  | q :: qs => qs.foldl max q

/-- An axis-aligned box `{x, y, w, h}`. -/
structure Box where
  x : ℚ
  y : ℚ
  w : ℚ
  h : ℚ
deriving DecidableEq, Repr

/-- Function `getBoundingBox(obj)` (src/app/page.tsx lines 175-195). -/
def getBoundingBox (o : DrawObj) : Box :=
  match o with
  | .path pts _ _ _ _ =>
      let xs := pts.map Pt.x
      let ys := pts.map Pt.y
      ⟨listMin xs, listMin ys, listMax xs - listMin xs, listMax ys - listMin ys⟩
  | .line p1 p2 _ _ _ =>
      ⟨min p1.x p2.x, min p1.y p2.y, |p2.x - p1.x|, |p2.y - p1.y|⟩
  | .shape _ x y w h _ _ _ => ⟨x, y, w, h⟩
  | .text x y t _ sz _ _ => ⟨x, y - sz * 4, (t.length : ℚ) * (sz * 2 + 8), sz * 4 + 12⟩

/-- Point-in-box test, as in the select branch of `handleMouseDown`
(src/app/page.tsx line 207): `x >= box.x && x <= box.x + box.w && y >= box.y
&& y <= box.y + box.h`. -/
def inBox (b : Box) (p : Pt) : Bool :=
  decide (b.x ≤ p.x ∧ p.x ≤ b.x + b.w ∧ b.y ≤ p.y ∧ p.y ≤ b.y + b.h)

/-- The bounding-box hit test used by the page.tsx select tool for every
object kind (src/app/page.tsx lines 205-212). -/
def hitTestPage (o : DrawObj) (p : Pt) : Bool :=
  inBox (getBoundingBox o) p

/-- Per-object hit condition of `handleDown` in the part_004 variant
(src/unnamed/part_004 lines 150-162): the `objects.forEach` body tests only
`obj.type === "shape"` objects — a rectangle by the bounding-box condition
(lines 152-156), a circle by the ellipse containment condition (lines
157-161) — so any other object never sets `found` and is never hit. -/
def handleDownHit (o : DrawObj) (p : Pt) : Bool :=
  match o with
  | .shape .rectangle x y w h _ _ _ =>
      decide (x ≤ p.x ∧ p.x ≤ x + w ∧ y ≤ p.y ∧ p.y ≤ y + h)
  | .shape .circle x y w h _ _ _ =>
      decide ((p.x - (x + w / 2)) ^ 2 / (w / 2) ^ 2
        + (p.y - (y + h / 2)) ^ 2 / (h / 2) ^ 2 ≤ 1)
  | _ => false

/-- Claim C9 theorem. Translation is additive: translating by (dx1,dy1) and
then by (dx2,dy2) equals translating by the summed offsets, for every
object kind, as computed by `moveObject` (src/app/page.tsx lines 307-321). -/
theorem moveObject_additive (o : DrawObj) (dx1 dy1 dx2 dy2 : ℚ) :
    moveObject (moveObject o dx1 dy1) dx2 dy2 = moveObject o (dx1 + dx2) (dy1 + dy2) := by
  cases o <;> simp [moveObject, List.map_map, Function.comp, add_assoc]

/-- A shape record of the resize-handle variant (src/unnamed/part_004 lines
310-319): `{ type: "shape"; shape; x; y; w; h; color; opacity }`. -/
structure ShapeRec where
  kind : ShapeKind
  x : ℚ
  y : ℚ
  w : ℚ
  h : ℚ
  color : String
  opacity : ℚ
deriving DecidableEq, Repr

/-- The four resize handles, indices 0:tl, 1:tr, 2:bl, 3:br
(src/unnamed/part_004 line 346). -/
inductive Corner
  | tl
  | tr
  | bl
  | br
deriving DecidableEq, Repr

/-- The corner of a shape named by a `Corner`, in the order of the `corners`
array of src/unnamed/part_004 lines 508-513. -/
def cornerPoint (s : ShapeRec) : Corner → Pt
  | .tl => ⟨s.x, s.y⟩
  | .tr => ⟨s.x + s.w, s.y⟩
  | .bl => ⟨s.x, s.y + s.h⟩
  | .br => ⟨s.x + s.w, s.y + s.h⟩

/-- The corner diagonally opposite a given corner. -/
def oppositeCorner : Corner → Corner
  | .tl => .br
  | .tr => .bl
  | .bl => .tr
  | .br => .tl

/-- One corner-resize step: the `switch (resizeHandle)` of `handlePointerMove`
(src/unnamed/part_004 lines 594-615) followed by the clamps
`obj.w = Math.max(10, obj.w); obj.h = Math.max(10, obj.h)` (lines 616-617).
Within each case the updates read the pre-assignment fields exactly as the
sequential mutations in the source do. -/
def resizeCorner (s : ShapeRec) (c : Corner) (pt : Pt) : ShapeRec :=
  let s1 : ShapeRec :=
    match c with
    | .tl => { s with w := s.w + (s.x - pt.x), h := s.h + (s.y - pt.y), x := pt.x, y := pt.y }
    | .tr => { s with w := pt.x - s.x, h := s.h + (s.y - pt.y), y := pt.y }
    | .bl => { s with w := s.w + (s.x - pt.x), x := pt.x, h := pt.y - s.y }
    | .br => { s with w := pt.x - s.x, h := pt.y - s.y }
  { s1 with w := max 10 s1.w, h := max 10 s1.h }

/-- The width the switch computes before clamping. -/
def rawW (s : ShapeRec) (c : Corner) (pt : Pt) : ℚ :=
  match c with
  | .tl | .bl => s.w + (s.x - pt.x)
  | .tr | .br => pt.x - s.x

/-- The height the switch computes before clamping. -/
def rawH (s : ShapeRec) (c : Corner) (pt : Pt) : ℚ :=
  match c with
  | .tl | .tr => s.h + (s.y - pt.y)
  | .bl | .br => pt.y - s.y

/-- Claim C5 theorem. For every shape, every dragged corner and every pointer
position, the shape produced by one corner-resize step has width and height
at least 10: the final clamps of src/unnamed/part_004 lines 616-617 apply to
all four cases. -/
theorem resizeCorner_clamped (s : ShapeRec) (c : Corner) (pt : Pt) :
    10 ≤ (resizeCorner s c pt).w ∧ 10 ≤ (resizeCorner s c pt).h := by
  cases c <;> exact ⟨le_max_left _ _, le_max_left _ _⟩

/-- Claim C6 counterexample. For the shape at (0,0) with w=h=100, dragging the
top-left handle to (200,50) crosses the opposite corner: the clamp forces
w=10 while x tracks the pointer, so the bottom-right corner moves from
(100,100) to (210,100).  The claim that the opposite corner is unchanged for
every pointer position is therefore false. -/
theorem resizeCorner_opposite_moves :
    cornerPoint (resizeCorner ⟨.rectangle, 0, 0, 100, 100, "#000000", 1⟩ .tl ⟨200, 50⟩)
        (oppositeCorner .tl)
      ≠ cornerPoint ⟨.rectangle, 0, 0, 100, 100, "#000000", 1⟩ (oppositeCorner .tl) := by
  norm_num [resizeCorner, cornerPoint, oppositeCorner, Pt.mk.injEq, max_def]

/-- Claim C6 theorem (amended). Whenever the recomputed width and height are
at least the minimum bound 10 — i.e. the clamp does not fire — the dragged
corner of the resized shape equals the pointer position and the opposite
corner is unchanged.  (When the pointer crosses the opposite corner the clamp
fires and one of the two properties fails, as the counterexample shows.) -/
theorem resizeCorner_tracks_pointer (s : ShapeRec) (c : Corner) (pt : Pt)
    (hw : 10 ≤ rawW s c pt) (hh : 10 ≤ rawH s c pt) :
    cornerPoint (resizeCorner s c pt) c = pt ∧
      cornerPoint (resizeCorner s c pt) (oppositeCorner c) =
        cornerPoint s (oppositeCorner c) := by
  cases c <;>
    simp only [rawW, rawH] at hw hh <;>
    simp [resizeCorner, cornerPoint, oppositeCorner, max_eq_right hw, max_eq_right hh,
      Pt.mk.injEq] <;>
    all_goals first | (constructor <;> ring) | ring

/-- Claim C6 witness: a concrete resize of the shape at (0,0) with w=h=100 by
dragging the bottom-right handle to (150,120), where no clamping occurs. -/
theorem resizeCorner_tracks_pointer_check :
    cornerPoint (resizeCorner ⟨.rectangle, 0, 0, 100, 100, "#000000", 1⟩ .br ⟨150, 120⟩) .br
        = ⟨150, 120⟩ ∧
      cornerPoint (resizeCorner ⟨.rectangle, 0, 0, 100, 100, "#000000", 1⟩ .br ⟨150, 120⟩)
          (oppositeCorner .br)
        = cornerPoint ⟨.rectangle, 0, 0, 100, 100, "#000000", 1⟩ (oppositeCorner .br) :=
  resizeCorner_tracks_pointer ⟨.rectangle, 0, 0, 100, 100, "#000000", 1⟩ .br ⟨150, 120⟩
    (by norm_num [rawW]) (by norm_num [rawH])

/-- Function `saveHistory()` (src/app/page.tsx lines 324-327): appends the current
object list to the undo stack and clears the redo stack. -/
def saveHistory (s : State) : State :=
  { s with history := s.history ++ [s.objects], redoStack := [] }

/-- Function `undo()` (src/app/page.tsx lines 328-333): no-op on an empty undo stack;
otherwise prepends the current objects to the redo stack, pops the top
(last) history entry into the live objects, and drops it from the history.
The selection is left untouched by this variant. -/
def undoPage (s : State) : State :=
  if s.history.isEmpty then s
  else { s with objects := s.history.getLastD [],
                history := s.history.dropLast,
                redoStack := s.objects :: s.redoStack }

/-- Function `redo()` (src/app/page.tsx lines 334-339): no-op on an empty redo stack;
otherwise appends the current objects to the undo stack, takes the head of
the redo stack as the live objects, and drops that head. -/
def redoPage (s : State) : State :=
  if s.redoStack.isEmpty then s
  else { s with objects := s.redoStack.headD [],
                history := s.history ++ [s.objects],
                redoStack := s.redoStack.tail }

/-- Function `handleUndo()` of the part_003 variant (src/unnamed/part_003 lines
293-299): as `undo()` above but additionally `setSelected(null)`. -/
def handleUndoP3 (s : State) : State :=
  if s.history.isEmpty then s
  else { s with objects := s.history.getLastD [],
                history := s.history.dropLast,
                redoStack := s.objects :: s.redoStack,
                selected := none }

/-- A discrete action that appends one object to the store, preceded by its
history push: the commit pattern `saveHistory(); setObjects(objs => [...objs,
obj])` shared by the pencil/line commit, shape insert and text submit
(src/app/page.tsx lines 266-278, 287-297, 343-357, 399-412). -/
def appendAction (o : DrawObj) (s : State) : State :=
  let s1 := saveHistory s
  { s1 with objects := s1.objects ++ [o] }

/-- Folds a sequence of append actions over a state. -/
def appendAll (os : List DrawObj) (s : State) : State :=
  os.foldl (fun s o => appendAction o s) s

/-- Iterated `undo()`. -/
def undoN : Nat → State → State
  | 0, s => s
  | n + 1, s => undoN n (undoPage s)

/-- Iterated `redo()`. -/
def redoN : Nat → State → State
  | 0, s => s
  | n + 1, s => redoN n (redoPage s)

/-- The sequence of snapshots `saveHistory` pushes while the objects grow from
`O` by the successive appends of `os`. -/
def histPushes (O : List DrawObj) : List DrawObj → List (List DrawObj)
  | [] => []
  | o :: os => O :: histPushes (O ++ [o]) os

theorem histPushes_length (O : List DrawObj) (os : List DrawObj) :
    (histPushes O os).length = os.length := by
  induction os generalizing O with
  | nil => rfl
  | cons o os ih => simp [histPushes, ih]

theorem appendAll_go (os : List DrawObj) (O : List DrawObj)
    (H : List (List DrawObj)) (R : List (List DrawObj)) (sel : Option Nat)
    (ds : Option Pt) (hne : os ≠ []) :
    appendAll os ⟨O, H, R, sel, ds⟩ =
      ⟨O ++ os, H ++ histPushes O os, [], sel, ds⟩ := by
  induction os generalizing O H R with
  | nil => cases hne rfl
  | cons o os ih =>
      rcases os with _ | ⟨o2, os2⟩
      · simp [appendAll, appendAction, saveHistory, histPushes]
      · have step : appendAll (o :: o2 :: os2) ⟨O, H, R, sel, ds⟩
            = appendAll (o2 :: os2) ⟨O ++ [o], H ++ [O], [], sel, ds⟩ := rfl
        rw [step, ih (O ++ [o]) (H ++ [O]) [] (by simp)]
        simp [histPushes]

theorem undoN_go (H : List (List DrawObj)) (h0 O : List DrawObj)
    (R : List (List DrawObj)) (sel : Option Nat) (ds : Option Pt) :
    undoN (h0 :: H).length ⟨O, h0 :: H, R, sel, ds⟩ =
      ⟨h0, [], H ++ O :: R, sel, ds⟩ := by
  induction H using List.reverseRecOn generalizing O R with
  | nil => simp [undoN, undoPage]
  | append_singleton H2 h ih =>
      have hlen : (h0 :: (H2 ++ [h])).length = (h0 :: H2).length + 1 := by simp
      rw [hlen]
      show undoN (h0 :: H2).length (undoPage ⟨O, h0 :: (H2 ++ [h]), R, sel, ds⟩) = _
      have e1 : ((h0 :: H2) ++ [h]).getLastD ([] : List DrawObj) = h := by
        rw [List.getLastD_eq_getLast?, List.getLast?_concat]; rfl
      have e2 : ((h0 :: H2) ++ [h]).dropLast = h0 :: H2 := List.dropLast_concat ..
      have e3 : ((h0 :: H2) ++ [h]).isEmpty = false := by simp
      have h1 : undoPage ⟨O, h0 :: (H2 ++ [h]), R, sel, ds⟩
          = ⟨h, h0 :: H2, O :: R, sel, ds⟩ := by
        show undoPage ⟨O, (h0 :: H2) ++ [h], R, sel, ds⟩ = _
        simp only [undoPage, e1, e2, e3, Bool.false_eq_true, if_false]
      rw [h1, ih]
      simp

theorem redoN_go (D : List (List DrawObj)) (O : List DrawObj)
    (H R : List (List DrawObj)) (sel : Option Nat) (ds : Option Pt) :
    redoN D.length ⟨O, H, D ++ R, sel, ds⟩ =
      ⟨D.getLastD O, H ++ (O :: D).dropLast, R, sel, ds⟩ := by
  induction D generalizing O H with
  | nil => simp [redoN]
  | cons d D2 ih =>
      show redoN (D2.length + 1) _ = _
      rw [redoN]
      have h1 : redoPage ⟨O, H, (d :: D2) ++ R, sel, ds⟩
          = ⟨d, H ++ [O], D2 ++ R, sel, ds⟩ := by
        simp [redoPage]
      rw [h1, ih]
      refine State.mk.injEq .. ▸ ?_
      refine ⟨?_, by simp, rfl, rfl, rfl⟩
      cases D2 using List.reverseRecOn with
      | nil => rfl
      | append_singleton l a =>
          rw [List.getLastD_eq_getLast?, List.getLastD_eq_getLast?, List.getLast?_concat,
            show d :: (l ++ [a]) = (d :: l) ++ [a] from rfl, List.getLast?_concat]
          rfl

/-- Claim C2 theorem. For every sequence of objects appended by discrete
actions (each preceded by its history push) starting from the empty store
with empty stacks, undoing N times restores the empty store and then redoing
N times restores the final N-object store. -/
theorem undo_redo_roundtrip (os : List DrawObj) :
    (undoN os.length (appendAll os initState)).objects = [] ∧
    (redoN os.length (undoN os.length (appendAll os initState))).objects = os := by
  rcases os with _ | ⟨o, os2⟩
  · exact ⟨rfl, rfl⟩
  · have hA : appendAll (o :: os2) initState
        = ⟨o :: os2, ([] : List DrawObj) :: histPushes [o] os2, [], none, none⟩ := by
      simpa [initState, histPushes] using
        appendAll_go (o :: os2) [] [] [] none none (by simp)
    have hL : (o :: os2).length = (([] : List DrawObj) :: histPushes [o] os2).length := by
      simp [histPushes_length]
    have hU : undoN (o :: os2).length
          ⟨o :: os2, ([] : List DrawObj) :: histPushes [o] os2, [], none, none⟩
        = ⟨[], [], histPushes [o] os2 ++ [o :: os2], none, none⟩ := by
      rw [hL]
      exact undoN_go (histPushes [o] os2) [] (o :: os2) [] none none
    have hD : (histPushes [o] os2 ++ [o :: os2]).length = (o :: os2).length := by
      simp [histPushes_length]
    have hR := redoN_go (histPushes [o] os2 ++ [o :: os2]) [] [] [] none none
    rw [hD, List.append_nil] at hR
    have hG : (histPushes [o] os2 ++ [o :: os2]).getLastD ([] : List DrawObj) = o :: os2 := by
      rw [List.getLastD_eq_getLast?, List.getLast?_concat]; rfl
    refine ⟨?_, ?_⟩
    · rw [hA, hU]
    · rw [hA, hU, hR, hG]

/-- The pencil/eraser branch of `handleMouseUp` (src/app/page.tsx lines
265-281): commits the recorded path only when `drawing && currentPath.length
> 1`, pushing history first. -/
def pencilUp (drawing : Bool) (cur : List Pt) (sz : ℚ) (col : String) (op : ℚ)
    (eraser : Bool) (s : State) : State :=
  if drawing ∧ 1 < cur.length then
    let s1 := saveHistory s
    { s1 with objects := s1.objects ++ [.path cur sz col op eraser] }
  else s

/-- The line branch of `handleMouseUp` (src/app/page.tsx lines 282-300):
when `drawing && lineStart`, pushes history and appends the line from
`lineStart` to the pointer-up position — with no check that the two
endpoints differ. -/
def lineUp (drawing : Bool) (lineStart : Option Pt) (p : Pt) (sz : ℚ)
    (col : String) (op : ℚ) (s : State) : State :=
  match drawing, lineStart with
  | true, some l0 =>
      let s1 := saveHistory s
      { s1 with objects := s1.objects ++ [.line l0 p sz col op] }
  | _, _ => s

/-- Function `handleTextSubmit` (src/app/page.tsx lines 396-416): commits the text
object only when `textInput.trim()` is nonempty and a placement point is
pending. -/
def handleTextSubmit (txt : String) (tp : Option Pt) (col : String) (sz : ℚ)
    (font : String) (op : ℚ) (s : State) : State :=
  match tp with
  | some p =>
      if txt.trim ≠ "" then
        let s1 := saveHistory s
        { s1 with objects := s1.objects ++ [.text p.x p.y txt col sz font op] }
      else s
  | none => s

/-- The pencil/eraser branch of `handlePointerDown` of the part_003 variant
(src/unnamed/part_003 lines 191-203): pushes history and immediately appends
a single-point path, then clears the selection. -/
def pencilDownP3 (p : Pt) (sz : ℚ) (col : String) (op : ℚ) (eraser : Bool)
    (s : State) : State :=
  { objects := s.objects ++ [.path [p] sz col op eraser],
    history := s.history ++ [s.objects],
    redoStack := [],
    selected := none,
    dragStart := s.dragStart }

/-- A sample rectangle shape, inserted at (50,50) with w=100 and h=50. -/
def sampleRect : DrawObj := .shape .rectangle 50 50 100 50 2 "#000000" 1

/-- Claim C3 counterexample. A line gesture whose two endpoints coincide
(pointer-up at the pointer-down position (5,5) with no movement) does insert
into the Scene Store: `handleMouseUp` appends a zero-length line, so the
object sequence changes. -/
theorem lineUp_zero_length_inserted :
    (lineUp true (some ⟨5, 5⟩) ⟨5, 5⟩ 5 "#000000" 1 initState).objects
      ≠ initState.objects := by
  simp [lineUp, saveHistory, initState]

/-- Claim C3 theorem (amended). Pencil/eraser commits whose recorded path has
fewer than two points, and text submissions whose content trims to empty,
leave the Scene Store unchanged; a line gesture with coinciding endpoints is
nevertheless appended as a zero-length line (counterexample), and the
part_003 variant appends a single-point path already at pointer-down. -/
theorem degenerate_not_inserted :
    (∀ (drawing : Bool) (cur : List Pt) (sz : ℚ) (col : String) (op : ℚ)
       (er : Bool) (s : State), cur.length < 2 →
        (pencilUp drawing cur sz col op er s).objects = s.objects) ∧
    (∀ (txt : String) (tp : Option Pt) (col : String) (sz : ℚ) (f : String)
       (op : ℚ) (s : State), txt.trim = "" →
        (handleTextSubmit txt tp col sz f op s).objects = s.objects) ∧
    (∀ (p : Pt) (sz : ℚ) (col : String) (op : ℚ) (er : Bool) (s : State),
        (pencilDownP3 p sz col op er s).objects
          = s.objects ++ [.path [p] sz col op er]) := by
  refine ⟨?_, ?_, ?_⟩
  · intro drawing cur sz col op er s hlen
    have hc : ¬(drawing ∧ 1 < cur.length) := fun hc => absurd hc.2 (by omega)
    simp [pencilUp, hc]
  · intro txt tp col sz f op s htrim
    cases tp with
    | none => rfl
    | some p => simp [handleTextSubmit, htrim]
  · intro p sz col op er s
    rfl

/-- Claim C3 witness: a one-point pencil gesture and an empty text submission
leave the store unchanged, while the part_003 pointer-down appends its
single-point path. -/
theorem degenerate_not_inserted_check :
    ([⟨1, 1⟩] : List Pt).length < 2 ∧
    (pencilUp true [⟨1, 1⟩] 5 "#000000" 1 false initState).objects
      = initState.objects ∧
    ("" : String).trim = "" ∧
    (handleTextSubmit ("" : String) (some ⟨3, 3⟩) "#000000" 5 "serif" 1 initState).objects
      = initState.objects ∧
    (pencilDownP3 ⟨2, 2⟩ 5 "#000000" 1 false initState).objects
      = initState.objects ++ [.path [⟨2, 2⟩] 5 "#000000" 1 false] :=
  ⟨by decide,
   degenerate_not_inserted.1 true [⟨1, 1⟩] 5 "#000000" 1 false initState (by decide),
   by simp [String.trim, Substring.trim, Substring.trimLeft, Substring.trimRight,
     Substring.takeWhileAux, Substring.takeRightWhileAux, Substring.toString,
     String.toSubstring, String.extract],
   degenerate_not_inserted.2.1 ("" : String) (some ⟨3, 3⟩) "#000000" 5 "serif" 1 initState
     (by simp [String.trim, Substring.trim, Substring.trimLeft, Substring.trimRight,
       Substring.takeWhileAux, Substring.takeRightWhileAux, Substring.toString,
       String.toSubstring, String.extract]),
   degenerate_not_inserted.2.2 ⟨2, 2⟩ 5 "#000000" 1 false initState⟩

/-- Claim C7 counterexample. With a nonempty undo stack and an active
selection (index 0), `undo()` of page.tsx leaves the selected index present
(still 0) rather than clearing it. -/
theorem undoPage_keeps_selection :
    (undoPage ⟨[sampleRect], [[]], [], some 0, none⟩).selected = some 0 ∧
    some 0 ≠ (none : Option Nat) :=
  ⟨rfl, by simp⟩

/-- Claim C7 theorem (amended). `undo()` is a no-op on an empty undo stack;
otherwise it pushes the current store onto the redo stack and pops the top
history snapshot into the live store.  The page.tsx variant leaves the
selection unchanged, while `handleUndo` of the part_003 variant additionally
clears it. -/
theorem undoPage_spec (s : State) :
    (s.history = [] → undoPage s = s ∧ handleUndoP3 s = s) ∧
    (∀ hs hh, s.history = hs ++ [hh] →
      undoPage s = ⟨hh, hs, s.objects :: s.redoStack, s.selected, s.dragStart⟩ ∧
      handleUndoP3 s = ⟨hh, hs, s.objects :: s.redoStack, none, s.dragStart⟩) := by
  obtain ⟨O, H, R, sel, ds⟩ := s
  constructor
  · intro hH
    simp only at hH
    subst hH
    exact ⟨rfl, rfl⟩
  · intro hs hh hH
    simp only at hH
    subst hH
    constructor <;>
      simp [undoPage, handleUndoP3, List.getLastD_eq_getLast?, List.getLast?_concat,
        List.dropLast_concat]

/-- Claim C7 witness: undoing from a concrete one-snapshot history with an
active selection. -/
theorem undoPage_spec_check :
    (⟨[], [[sampleRect]], [], some 0, none⟩ : State).history = [] ++ [[sampleRect]] ∧
    undoPage ⟨[], [[sampleRect]], [], some 0, none⟩
      = ⟨[sampleRect], [], [[]], some 0, none⟩ ∧
    handleUndoP3 ⟨[], [[sampleRect]], [], some 0, none⟩
      = ⟨[sampleRect], [], [[]], none, none⟩ ∧
    undoPage initState = initState ∧
    handleUndoP3 initState = initState :=
  ⟨rfl,
   ((undoPage_spec ⟨[], [[sampleRect]], [], some 0, none⟩).2 [] [sampleRect] rfl).1,
   ((undoPage_spec ⟨[], [[sampleRect]], [], some 0, none⟩).2 [] [sampleRect] rfl).2,
   ((undoPage_spec initState).1 rfl).1,
   ((undoPage_spec initState).1 rfl).2⟩

/-- Claim C8 theorem. Every history push unconditionally empties the redo
stack (`saveHistory`, src/app/page.tsx lines 324-327); hence after
draw A, draw B, undo, draw C, a `redo()` call is a no-op: the pre-undo state
containing B is permanently lost. -/
theorem saveHistory_clears_redo :
    (∀ s : State, (saveHistory s).redoStack = []) ∧
    (let sA := pencilUp true [⟨0, 0⟩, ⟨1, 1⟩] 5 "#000000" 1 false initState
     let sB := pencilUp true [⟨2, 2⟩, ⟨3, 3⟩] 5 "#000000" 1 false sA
     let sU := undoPage sB
     let sC := pencilUp true [⟨4, 4⟩, ⟨5, 5⟩] 5 "#000000" 1 false sU
     sU.redoStack ≠ [] ∧ sC.redoStack = [] ∧ redoPage sC = sC) := by
  refine ⟨fun s => rfl, by simp [pencilUp, undoPage, saveHistory, initState], rfl, rfl⟩

/-- The select-drag move step of `handleMouseMove` (src/app/page.tsx lines
249-261): `objs.map((obj, idx) => idx === selected ? moveObject(obj, dx, dy)
: obj)`, written with an explicit running index. -/
def dragMapAux (sel : Nat) (dx dy : ℚ) (i : Nat) : List DrawObj → List DrawObj
  | [] => []
  | o :: os => (if i = sel then moveObject o dx dy else o) :: dragMapAux sel dx dy (i + 1) os

/-- The full drag move step applied to the object list. -/
def dragMoveStep (objs : List DrawObj) (sel : Nat) (dx dy : ℚ) : List DrawObj :=
  dragMapAux sel dx dy 0 objs

/-- The tag of the tagged union (`obj.type` in the source). -/
inductive ObjKind
  | path
  | line
  | shape
  | text
deriving DecidableEq, Repr

/-- The `type` tag of an object. -/
def kindOf : DrawObj → ObjKind
  | .path .. => .path
  | .line .. => .line
  | .shape .. => .shape
  | .text .. => .text

/-- The non-coordinate fields of an object: color, size, opacity, and the
variant-specific eraser flag, font, text content and shape kind. -/
structure StyleInfo where
  color : String
  size : ℚ
  opacity : ℚ
  eraserFlag : Option Bool
  font : Option String
  content : Option String
  shapeOf : Option ShapeKind
deriving DecidableEq, Repr

/-- Extracts the non-coordinate fields of an object. -/
def styleOf : DrawObj → StyleInfo
  | .path _ sz c op e => ⟨c, sz, op, some e, none, none, none⟩
  | .line _ _ sz c op => ⟨c, sz, op, none, none, none, none⟩
  | .shape k _ _ _ _ sz c op => ⟨c, sz, op, none, none, none, some k⟩
  | .text _ _ t c sz f op => ⟨c, sz, op, none, some f, some t, none⟩

theorem dragMapAux_length (sel : Nat) (dx dy : ℚ) (os : List DrawObj) :
    ∀ i, (dragMapAux sel dx dy i os).length = os.length := by
  induction os with
  | nil => intro i; rfl
  | cons o os ih => intro i; simp [dragMapAux, ih]

theorem dragMapAux_get (sel : Nat) (dx dy : ℚ) (os : List DrawObj) :
    ∀ j i, (dragMapAux sel dx dy j os)[i]?
      = os[i]?.map (fun o => if j + i = sel then moveObject o dx dy else o) := by
  induction os with
  | nil => intro j i; rfl
  | cons o os ih =>
      intro j i
      cases i with
      | zero => simp [dragMapAux]
      | succ i2 =>
          simp only [dragMapAux, List.getElem?_cons_succ, ih (j + 1) i2]
          have h2 : j + 1 + i2 = j + (i2 + 1) := by omega
          rw [h2]

/-- Claim C10 theorem. A pointer-move step during an object drag replaces
only the entry at the selected index with its translation: the length is
unchanged, every other index holds the identical object, the selected index
holds `moveObject` of the old object, and `moveObject` preserves the kind
tag and every non-coordinate field. -/
theorem dragMoveStep_frame (objs : List DrawObj) (sel : Nat) (dx dy : ℚ) :
    (dragMoveStep objs sel dx dy).length = objs.length ∧
    (∀ i, i ≠ sel → (dragMoveStep objs sel dx dy)[i]? = objs[i]?) ∧
    (dragMoveStep objs sel dx dy)[sel]? = objs[sel]?.map (fun o => moveObject o dx dy) ∧
    (∀ o, kindOf (moveObject o dx dy) = kindOf o ∧
      styleOf (moveObject o dx dy) = styleOf o) := by
  refine ⟨dragMapAux_length sel dx dy objs 0, ?_, ?_, ?_⟩
  · intro i hne
    rw [dragMoveStep, dragMapAux_get sel dx dy objs 0 i]
    have h0 : ¬(0 + i = sel) := by omega
    simp [h0, hne]
  · rw [dragMoveStep, dragMapAux_get sel dx dy objs 0 sel]
    simp
  · intro o
    cases o <;> exact ⟨rfl, rfl⟩

/-- Claim C10 witness: dragging index 1 of a two-object store by (3,4) leaves
index 0 untouched and translates index 1. -/
theorem dragMoveStep_frame_check :
    (0 : Nat) ≠ 1 ∧
    (dragMoveStep [sampleRect, DrawObj.text 5 6 "hi" "#000000" 3 "serif" 1] 1 3 4)[0]?
      = ([sampleRect, DrawObj.text 5 6 "hi" "#000000" 3 "serif" 1] : List DrawObj)[0]? ∧
    (dragMoveStep [sampleRect, DrawObj.text 5 6 "hi" "#000000" 3 "serif" 1] 1 3 4)[1]?
      = (([sampleRect, DrawObj.text 5 6 "hi" "#000000" 3 "serif" 1] : List DrawObj)[1]?).map
          (fun o => moveObject o 3 4) :=
  ⟨by decide,
   (dragMoveStep_frame [sampleRect, DrawObj.text 5 6 "hi" "#000000" 3 "serif" 1] 1 3 4).2.1 0
     (by decide),
   (dragMoveStep_frame [sampleRect, DrawObj.text 5 6 "hi" "#000000" 3 "serif" 1] 1 3 4).2.2.1⟩

/-- Claim C4 counterexample. In the select loop of page.tsx (the cited hit
test of the claim), circle shapes are hit-tested by bounding box alone: the
point (2,2) lies inside the bounding box of the circle shape at (0,0) with
w=h=100, its ellipse value exceeds 1, and yet it IS a hit — refuting the
claim that for a circle such a point is not a hit. -/
theorem hitTestPage_circle_bbox_hit :
    hitTestPage (.shape .circle 0 0 100 100 2 "#000000" 1) ⟨2, 2⟩ = true ∧
    1 < (((2 : ℚ) - (0 + 100 / 2)) ^ 2 / (100 / 2) ^ 2
          + ((2 : ℚ) - (0 + 100 / 2)) ^ 2 / (100 / 2) ^ 2) :=
  ⟨by norm_num [hitTestPage, inBox, getBoundingBox], by norm_num⟩

/-- Claim C4 theorem (amended). No single hit test implements the claimed
dispatch; it is variant-specific.  The page.tsx select-tool hit test is the
point-in-bounding-box test for every object kind, circle shapes included
(counterexample).  In the part_004 variant, `handleDown` hit-tests only
shape objects: rectangle shapes by the bounding-box test, circle shapes by
the true ellipse containment formula — so there a point inside the bounding
box whose ellipse value exceeds 1 is not a hit — and every non-shape object
is never hit. -/
theorem hitTest_per_variant :
    (∀ (o : DrawObj) (p : Pt), hitTestPage o p = inBox (getBoundingBox o) p) ∧
    (∀ (x y w h sz : ℚ) (col : String) (op : ℚ) (p : Pt),
        handleDownHit (.shape .rectangle x y w h sz col op) p
          = inBox (getBoundingBox (.shape .rectangle x y w h sz col op)) p) ∧
    (∀ (x y w h sz : ℚ) (col : String) (op : ℚ) (p : Pt),
        handleDownHit (.shape .circle x y w h sz col op) p = true ↔
          (p.x - (x + w / 2)) ^ 2 / (w / 2) ^ 2
            + (p.y - (y + h / 2)) ^ 2 / (h / 2) ^ 2 ≤ 1) ∧
    (∀ (x y w h sz : ℚ) (col : String) (op : ℚ) (p : Pt),
        inBox (getBoundingBox (.shape .circle x y w h sz col op)) p = true →
        1 < (p.x - (x + w / 2)) ^ 2 / (w / 2) ^ 2
            + (p.y - (y + h / 2)) ^ 2 / (h / 2) ^ 2 →
        handleDownHit (.shape .circle x y w h sz col op) p = false) ∧
    (∀ (o : DrawObj) (p : Pt), kindOf o ≠ .shape → handleDownHit o p = false) := by
  refine ⟨fun o p => rfl, fun x y w h sz col op p => rfl, ?_, ?_, ?_⟩
  · intro x y w h sz col op p
    simp [handleDownHit]
  · intro x y w h sz col op p _ hout
    simp [handleDownHit]
    linarith
  · intro o p hk
    cases o with
    | shape k x y w h sz col op => exact absurd rfl hk
    | path pts sz col op e => rfl
    | line p1 p2 sz col op => rfl
    | text x y t col sz f op => rfl

/-- Claim C4 witness: in the part_004 hit test the point (2,2) is inside the
bounding box of the circle at (0,0) with w=h=100, outside its inscribed
ellipse, and is not a hit; and a path object is never hit there. -/
theorem hitTest_per_variant_check :
    inBox (getBoundingBox (.shape .circle 0 0 100 100 2 "#000000" 1)) ⟨2, 2⟩ = true ∧
    1 < (((2 : ℚ) - (0 + 100 / 2)) ^ 2 / (100 / 2) ^ 2
          + ((2 : ℚ) - (0 + 100 / 2)) ^ 2 / (100 / 2) ^ 2) ∧
    handleDownHit (.shape .circle 0 0 100 100 2 "#000000" 1) ⟨2, 2⟩ = false ∧
    kindOf (DrawObj.path [⟨1, 1⟩] 5 "#000000" 1 false) ≠ ObjKind.shape ∧
    handleDownHit (DrawObj.path [⟨1, 1⟩] 5 "#000000" 1 false) ⟨1, 1⟩ = false :=
  ⟨by norm_num [inBox, getBoundingBox],
   by norm_num,
   hitTest_per_variant.2.2.2.1 0 0 100 100 2 "#000000" 1 ⟨2, 2⟩
     (by norm_num [inBox, getBoundingBox]) (by norm_num),
   by decide,
   hitTest_per_variant.2.2.2.2 (DrawObj.path [⟨1, 1⟩] 5 "#000000" 1 false) ⟨1, 1⟩
     (by decide)⟩

/-- The select branch of `handleMouseDown` (src/app/page.tsx lines 203-213):
walks the objects from the topmost (last index) down and returns the first
index whose bounding box contains the pointer. -/
def topHit (objs : List DrawObj) (p : Pt) : Option Nat :=
  (List.range objs.length).reverse.find? (fun i =>
    match objs[i]? with
    | some o => hitTestPage o p
    | none => false)

/-- Select-tool pointer-down (src/app/page.tsx lines 203-213): a hit selects
its index and records the drag anchor; a miss clears the selection. -/
def selectMouseDown (p : Pt) (s : State) : State :=
  match topHit s.objects p with
  | some i => { s with selected := some i, dragStart := some p }
  | none => { s with selected := none }

/-- Select-tool pointer-move (src/app/page.tsx lines 249-261): with a
selection and a drag anchor, translates the selected object by the delta
since the anchor and re-anchors at the new pointer position. -/
def selectMouseMove (p : Pt) (s : State) : State :=
  match s.selected, s.dragStart with
  | some sel, some d =>
      { s with objects := dragMoveStep s.objects sel (p.x - d.x) (p.y - d.y),
               dragStart := some p }
  | _, _ => s

/-- Select-tool pointer-up (src/app/page.tsx lines 301-304): with a
selection, calls `saveHistory()` — pushing the CURRENT (post-drag) objects —
and clears the drag anchor. -/
def selectMouseUp (s : State) : State :=
  match s.selected with
  | some _ => { saveHistory s with dragStart := none }
  | none => s

/-- The sample rectangle after the (10,10) drag. -/
def rect60 : DrawObj := .shape .rectangle 60 60 100 50 2 "#000000" 1

/-- The scenario states of claim C1: a scene holding the rectangle at
(50,50), then select-down at (75,75), move to (85,85), pointer-up. -/
def dragScene0 : State := ⟨[sampleRect], [], [], none, none⟩

def dragScene1 : State := selectMouseDown ⟨75, 75⟩ dragScene0

def dragScene2 : State := selectMouseMove ⟨85, 85⟩ dragScene1

def dragScene3 : State := selectMouseUp dragScene2

/-- Claim C1 theorem (documenting the code bug). The select click at (75,75)
does select the rectangle and the (10,10) drag moves its origin to (60,60);
but the only history push of the gesture happens at pointer-UP and snapshots the
post-drag store, so the subsequent undo yields origin (60,60), not (50,50)
as the claim states. -/
theorem drag_undo_keeps_moved_origin :
    dragScene1.selected = some 0 ∧
    dragScene2.objects = [rect60] ∧
    dragScene3.history = [[rect60]] ∧
    (undoPage dragScene3).objects = [rect60] ∧
    rect60 ≠ sampleRect := by
  have hhit : hitTestPage sampleRect ⟨75, 75⟩ = true := by
    norm_num [hitTestPage, inBox, getBoundingBox, sampleRect]
  have h1 : dragScene1 = ⟨[sampleRect], [], [], some 0, some ⟨75, 75⟩⟩ := by
    simp [dragScene1, dragScene0, selectMouseDown, topHit, List.range_succ, List.find?, hhit]
  have h2 : dragScene2 = ⟨[rect60], [], [], some 0, some ⟨85, 85⟩⟩ := by
    rw [dragScene2, h1]
    norm_num [selectMouseMove, dragMoveStep, dragMapAux, moveObject, sampleRect, rect60]
  have h3 : dragScene3 = ⟨[rect60], [[rect60]], [], some 0, none⟩ := by
    rw [dragScene3, h2]
    rfl
  refine ⟨by rw [h1], by rw [h2], by rw [h3], by rw [h3]; rfl, ?_⟩
  norm_num [rect60, sampleRect]
